import Mathlib

/-!
# Verification of the `arkiv` archive façade

A shallow embedding of the `arkiv-rs` crate (format classifier, entry model,
backend capability, archive façade, downloader) together with proofs of the
specification claims.

Conventions of the embedding:

* File names and paths handed to the format classifier are modelled as their
  byte sequences (`List Nat`), matching the byte-wise `OsStr` semantics of
  `Path::extension`, `Path::file_stem` and `to_ascii_lowercase` used by
  `Format::infer_from_file_extension` (src/format.rs).  `46` is `'.'`.
* Archive-internal paths are modelled as `String`s; the `PartialEq` used on
  `Path` values (component-wise comparison) is modelled by `pathEq`, built on
  `pathComponents`.
* Fallible Rust functions returning `crate::Result<T>` become
  `Except Error T`; `&mut self` state is threaded explicitly.
* The external container libraries (`zip`, `tar`, the codec decoders) are
  opaque collaborators: a freshly constructed backend's entry pass is an
  abstract `List (Except Error Entry)` supplied as a parameter (the contents
  of the byte source at the storage path), and the filesystem is an explicit
  `FS` state.
-/

namespace Arkiv

/-! ## Format classifier (src/format.rs) -/

/-- Available archive file formats (src/format.rs, `enum Format`). -/
inductive Format where
  | Zip
  | Tar
  | Gzip
  | Zstd
  | Bzip2
  | Xz2
  | TarGzip
  | TarBzip2
  | TarXz2
  | TarZstd
  | Unknown
deriving DecidableEq, Repr

/-- ASCII lowercasing of one byte (`u8::to_ascii_lowercase`). -/
def asciiLower (n : Nat) : Nat :=
  if 65 ≤ n ∧ n ≤ 90 then n + 32 else n

/-- Bytes of a string literal (ASCII names; used to feed the classifier). -/
def strBytes (s : String) : List Nat :=
  s.data.map Char.toNat

/-- Split a byte list at its last `'.'` (byte 46): returns
`some (stem, ext)` with `l = stem ++ 46 :: ext` and no dot in `ext`. -/
def lastDotSplit : List Nat → Option (List Nat × List Nat)
  | [] => none
  | c :: rest =>
    match lastDotSplit rest with
    | some (s, e) => some (c :: s, e)
    | none => if c = 46 then some ([], rest) else none

/-- `Path::extension` on a file name: the part after the last dot, unless
there is no dot or the name starts with its only dot. -/
def extension (l : List Nat) : Option (List Nat) :=
  match lastDotSplit l with
  | some (s, e) => if s = [] then none else some e
  | none => none

/-- `Path::file_stem` on a file name: the part before the last dot, or the
whole name when there is no usable extension. -/
def fileStem (l : List Nat) : Option (List Nat) :=
  if l = [] then none
  else
    match lastDotSplit l with
    | some (s, _) => if s = [] then some l else some s
    | none => some l

/-- The one-extension form of the `match_ext!` macro:
`path.extension()` lower-cased equals the literal. -/
def matchExt1 (name : List Nat) (ext : List Nat) : Bool :=
  match extension name with
  | some e => e.map asciiLower = ext
  | none => false

/-- The two-extension form of the `match_ext!` macro: the final extension
lower-cased equals `ext2`, and the file stem in turn has extension `ext1`. -/
def matchExt2 (name : List Nat) (ext1 ext2 : List Nat) : Bool :=
  match extension name with
  | some e =>
    e.map asciiLower = ext2 &&
      (match fileStem name with
       | some stem => matchExt1 stem ext1
       | none => false)
  | none => false

/-- `Format::infer_from_file_extension` (src/format.rs:82-108) over the byte
sequence of the file name. -/
def inferName (name : List Nat) : Format :=
  if matchExt1 name (strBytes "zip") then .Zip
  else if matchExt1 name (strBytes "tar") then .Tar
  else if matchExt1 name (strBytes "tgz") || matchExt2 name (strBytes "tar") (strBytes "gz") then .TarGzip
  else if matchExt2 name (strBytes "tar") (strBytes "xz") then .TarXz2
  else if matchExt2 name (strBytes "tar") (strBytes "bz2") then .TarBzip2
  else if matchExt2 name (strBytes "tar") (strBytes "zstd") || matchExt2 name (strBytes "tar") (strBytes "zst") then .TarZstd
  else if matchExt1 name (strBytes "gz") then .Gzip
  else if matchExt1 name (strBytes "xz") then .Xz2
  else if matchExt1 name (strBytes "bz2") then .Bzip2
  else if matchExt1 name (strBytes "zstd") || matchExt1 name (strBytes "zst") then .Zstd
  else .Unknown

/-- `Format::infer_from_file_extension` on a string. -/
def Format.infer_from_file_extension (s : String) : Format :=
  inferName (strBytes s)

/-- `Format::is_compressed` (src/format.rs:122-124). -/
def Format.is_compressed : Format → Bool
  | .Tar => false
  | _ => true

/-- `Format::is_archive` (src/format.rs:138-152). -/
def Format.is_archive : Format → Bool
  | .Zip => true
  | .Tar => true
  | .Gzip => false
  | .Zstd => false
  | .Bzip2 => false
  | .Xz2 => false
  | .TarGzip => true
  | .TarBzip2 => true
  | .TarXz2 => true
  | .TarZstd => true
  | .Unknown => false

example : Format.infer_from_file_extension "sample.tgz" = .TarGzip := by decide
example : Format.infer_from_file_extension "sample.TAR.GZ" = .TarGzip := by decide
example : Format.infer_from_file_extension "sample.txt.gz" = .Gzip := by decide
example : Format.infer_from_file_extension "sample.exe" = .Unknown := by decide
example : Format.infer_from_file_extension "sample.tar.zst" = .TarZstd := by decide
example : Format.infer_from_file_extension ".tar.gz" = .Gzip := by decide

/-! ## Error taxonomy (src/result.rs) -/

/-- `arkiv::Error` (src/result.rs).  The payload of `Io` is the message of
the wrapped `std::io::Error`; `InvalidArchive` and `UnsupportedArchive`
carry their static diagnostic strings. -/
inductive Error where
  | Io : String → Error
  | InvalidArchive : String → Error
  | UnsupportedArchive : String → Error
  | FileNotFound : Error
  | InvalidUrl : String → Error
  | InvalidRequest : String → Error
deriving DecidableEq, Repr

instance {ε : Type} {α : Type} [DecidableEq ε] [DecidableEq α] :
    DecidableEq (Except ε α) := fun x y =>
  match x, y with
  | .error a, .error b =>
    if h : a = b then .isTrue (by rw [h]) else .isFalse (fun hx => h (Except.error.inj hx))
  | .error _, .ok _ => .isFalse (fun hx => Except.noConfusion hx)
  | .ok _, .error _ => .isFalse (fun hx => Except.noConfusion hx)
  | .ok a, .ok b =>
    if h : a = b then .isTrue (by rw [h]) else .isFalse (fun hx => h (Except.ok.inj hx))

/-! ## Paths

Archive-internal paths stay `String`s (the raw bytes of the `PathBuf`, which
is also what `.display()` prints).  Equality of two `Path` values in Rust
compares their parsed components, so the embedding parses components
explicitly: split on `'/'`, drop empty segments, drop `"."` segments except
a leading one, keep a marker for a leading root slash. -/

/-- Split a character list on `'/'`. -/
def splitSlash : List Char → List (List Char)
  | [] => [[]]
  | c :: rest =>
    if c = '/' then [] :: splitSlash rest
    else
      match splitSlash rest with
      | [] => [[c]]
      | g :: gs => (c :: g) :: gs

/-- The components of a path string, as Rust's `Path::components` produces
them (modulo Windows prefixes): a `['/']` marker for a leading root slash,
then the non-empty segments with interior `"."` segments dropped (a leading
`"."` of a relative path is kept). -/
def pathComponents (s : String) : List (List Char) :=
  let isAbs : Bool := match s.data with | '/' :: _ => true | _ => false
  let groups := (splitSlash s.data).filter (fun g => g ≠ [])
  let body :=
    match groups with
    | [] => []
    | g :: gs =>
      (if g = ['.'] && !isAbs then [g] else if g = ['.'] then [] else [g])
        ++ gs.filter (fun q => q ≠ ['.'])
  (if isAbs then [['/']] else []) ++ body

/-- `PartialEq` on Rust `Path` values: component-wise equality. -/
def pathEq (a b : String) : Bool :=
  pathComponents a = pathComponents b

example : pathEq "sample/" "sample" = true := by decide
example : pathEq "sample/sample.txt" "sample//sample.txt" = true := by decide
example : pathEq "sample" "sample.txt" = false := by decide

/-! ## Entry model (src/entry.rs) -/

/-- `arkiv::entry::EntryType`. -/
inductive EntryType where
  | Directory
  | File
  | Other
deriving DecidableEq, Repr

/-- `arkiv::Entry`: path, size, kind, plus the backend positional index the
zip backend uses for direct re-lookup (src/zip.rs builds and consumes it). -/
structure Entry where
  index : Nat
  path : String
  size : Nat
  entry_type : EntryType
deriving DecidableEq, Repr

/-- `Entry::is_dir`. -/
def Entry.is_dir (e : Entry) : Bool := e.entry_type == .Directory

/-- `Entry::is_file`. -/
def Entry.is_file (e : Entry) : Bool := e.entry_type == .File

/-- One lazily produced pass of entry results (`arkiv::Entries`), observed
as the finite list of items the iterator yields front to back. -/
abbrev Pass := List (Except Error Entry)

/-- `arkiv::FindEntries`: the filtered iterator returned by
`Archive::find` — a predicate plus the underlying pass. -/
structure FindEntries where
  predicate : Entry → Bool
  inner : Pass

/-- `FindEntries::next` (src/entry.rs:58-73): skip entries failing the
predicate, yield matching entries and underlying errors immediately; also
returns the items not yet consumed. -/
def FindEntries.next (p : Entry → Bool) : Pass → Option (Except Error Entry) × Pass
  | [] => (none, [])
  | .error e :: rest => (some (.error e), rest)
  | .ok en :: rest =>
    if p en then (some (.ok en), rest) else FindEntries.next p rest

/-! ## Archive façade (src/archive.rs)

`Archive::archived` opens a brand-new `File` at the storage path and
constructs a fresh backend from it, replacing any cached one.  The external
libraries are opaque: what a fresh backend pass over the byte source yields
is a parameter `disk : String → Except Error Pass` mapping the storage path
to either the error raised while opening/constructing (`File::open`,
`Zip::new`, decoder construction, `Archived::entries`) or the entry items
of one full fresh pass.  Because the on-disk bytes do not change, `disk` is
a fixed function.  The compiled-in feature set of the crate is a `Features`
record; `Archive::archived` dispatches on it exactly as the `#[cfg]`-gated
match arms do. -/

/-- The cargo features gating the backends (`zip`, `tar`, `gzip`, `bzip2`,
`xz2`, `zstd`). -/
structure Features where
  zip : Bool
  tar : Bool
  gzip : Bool
  bzip2 : Bool
  xz2 : Bool
  zstd : Bool
deriving DecidableEq, Repr

/-- Which formats have a compiled-in backend arm in `Archive::archived`
(src/archive.rs:151-173). -/
def backendAvailable (ft : Features) : Format → Bool
  | .Zip => ft.zip
  | .Tar => ft.tar
  | .TarGzip => ft.tar && ft.gzip
  | .TarBzip2 => ft.tar && ft.bzip2
  | .TarXz2 => ft.tar && ft.xz2
  | .TarZstd => ft.tar && ft.zstd
  | _ => false

/-- A constructed backend (`Box<dyn Archived>`), abstracted to the pass its
`entries()` produces. -/
structure Backend where
  pass : Pass
deriving DecidableEq

/-- `arkiv::archive::Storage`. -/
inductive Storage where
  | FileOnDisk (path : String)
  | FileInTempDirectory (temp : String) (file_name : String)
deriving DecidableEq

/-- `Storage::as_path`. -/
def Storage.as_path : Storage → String
  | .FileOnDisk p => p
  | .FileInTempDirectory t n => t ++ "/" ++ n

/-- `arkiv::Archive`: format, storage and the cached backend slot. -/
structure Archive where
  format : Format
  storage : Storage
  archived : Option Backend
deriving DecidableEq

/-- `Archive::path`. -/
def Archive.path (a : Archive) : String := a.storage.as_path

/-- `Archive::new` (src/archive.rs:83-97): infer the format from the storage
path and reject non-archive formats.  It takes no disk state: the byte
source is not touched. -/
def Archive.new (storage : Storage) : Except Error Archive :=
  let format := Format.infer_from_file_extension storage.as_path
  if format.is_archive then .ok ⟨format, storage, none⟩
  else .error (.UnsupportedArchive "unsupported format, did you enable the proper feature?")

/-- `Archive::open` (src/archive.rs:116-120). -/
def Archive.open (path : String) : Except Error Archive :=
  Archive.new (.FileOnDisk path)

/-- `Archive::archived` (src/archive.rs:147-180): open a fresh file handle
at the storage path, construct a brand-new backend for the format (an
`UnsupportedArchive` error if no backend is compiled in), and replace any
previously cached backend with it. -/
def Archive.archivedFresh (ft : Features) (disk : String → Except Error Pass)
    (a : Archive) : Except Error (Backend × Archive) :=
  match disk a.path with
  | .error e => .error e
  | .ok pass =>
    if backendAvailable ft a.format then
      let b : Backend := ⟨pass⟩
      .ok (b, { a with archived := some b })
    else
      .error (.UnsupportedArchive "unsupported format, did you enable the proper feature?")

/-- `Archive::entries_iter` (src/archive.rs:245-247): the fresh backend's
`entries()` pass. -/
def Archive.entries_iter (ft : Features) (disk : String → Except Error Pass)
    (a : Archive) : Except Error Pass × Archive :=
  match Archive.archivedFresh ft disk a with
  | .error e => (.error e, a)
  | .ok (b, a1) => (.ok b.pass, a1)

/-- The collection loop of `Archive::entries` (src/archive.rs:217-224):
drain the pass, pushing each entry's displayed path, returning the first
error instead. -/
def collectEntries : Pass → Except Error (List String)
  | [] => .ok []
  | .error e :: _ => .error e
  | .ok en :: rest =>
    match collectEntries rest with
    | .error e => .error e
    | .ok l => .ok (en.path :: l)

/-- `Archive::entries`. -/
def Archive.entries (ft : Features) (disk : String → Except Error Pass)
    (a : Archive) : Except Error (List String) × Archive :=
  match Archive.entries_iter ft disk a with
  | (.error e, a1) => (.error e, a1)
  | (.ok pass, a1) => (collectEntries pass, a1)

/-- `Archive::find` (src/archive.rs:318-323): a `FindEntries` over a fresh
`entries_iter` pass. -/
def Archive.find (ft : Features) (disk : String → Except Error Pass)
    (a : Archive) (p : Entry → Bool) : Except Error FindEntries × Archive :=
  match Archive.entries_iter ft disk a with
  | (.error e, a1) => (.error e, a1)
  | (.ok pass, a1) => (.ok ⟨p, pass⟩, a1)

/-- `Archive::entry_by_name` (src/archive.rs:289-293):
`find(path == target).next().unwrap_or(Err(FileNotFound))`. -/
def Archive.entry_by_name (ft : Features) (disk : String → Except Error Pass)
    (a : Archive) (target : String) : Except Error Entry × Archive :=
  match Archive.find ft disk a (fun en => pathEq en.path target) with
  | (.error e, a1) => (.error e, a1)
  | (.ok fe, a1) =>
    match FindEntries.next fe.predicate fe.inner with
    | (none, _) => (.error .FileNotFound, a1)
    | (some r, _) => (r, a1)

/-! ## Spec-side descriptions for the lookup/filter claims -/

/-- Spec-side description of `entry_by_name` (spec §4.3): filter a fresh
pass for path equality with the target and take the first match,
propagating underlying errors, `FileNotFound` when nothing matches. -/
def firstMatchSpec (target : String) : Pass → Except Error Entry
  | [] => .error .FileNotFound
  | .error e :: _ => .error e
  | .ok en :: rest =>
    if pathEq en.path target then .ok en else firstMatchSpec target rest

/-- Which pass items the spec (§4.3, `find`) keeps: entries satisfying the
predicate and every underlying error. -/
def keepItem (p : Entry → Bool) : Except Error Entry → Bool
  | .ok en => p en
  | .error _ => true

/-- Yielding `some` from `FindEntries.next` consumes at least one item. -/
theorem FindEntries.next_length_lt (p : Entry → Bool) :
    ∀ (l : Pass) (r : Except Error Entry) (rest : Pass),
      FindEntries.next p l = (some r, rest) → rest.length < l.length := by
  intro l
  induction l with
  | nil => intro r rest h; simp [FindEntries.next] at h
  | cons x xs ih =>
    intro r rest h
    match x with
    | .error e =>
      simp only [FindEntries.next, Prod.mk.injEq] at h
      rw [← h.2]
      simp
    | .ok en =>
      simp only [FindEntries.next] at h
      by_cases hp : p en
      · rw [if_pos hp] at h
        rw [Prod.mk.injEq] at h
        rw [← h.2]
        simp
      · rw [if_neg hp] at h
        have h2 := ih r rest h
        simp only [List.length_cons]
        omega

/-- Fully draining a `FindEntries` iterator: call `next` until it yields
`none`, collecting the yielded items. -/
def FindEntries.drain (p : Entry → Bool) (l : Pass) : List (Except Error Entry) :=
  match h : FindEntries.next p l with
  | (none, _) => []
  | (some r, rest) => r :: FindEntries.drain p rest
termination_by l.length
decreasing_by exact FindEntries.next_length_lt p l r rest h

/-! ## C1: entries() twice on an unchanged byte source -/

/-- A pass-needing operation never changes format or storage. -/
theorem Archive.entries_preserves (ft : Features)
    (disk : String → Except Error Pass) (a : Archive) :
    (Archive.entries ft disk a).2.format = a.format ∧
      (Archive.entries ft disk a).2.storage = a.storage := by
  unfold Archive.entries Archive.entries_iter Archive.archivedFresh
  cases h : disk a.path with
  | error e => simp
  | ok pass =>
    by_cases hb : backendAvailable ft a.format
    · simp [hb]
    · simp [hb]

/-- The result of `entries()` depends only on the format and storage path. -/
theorem Archive.entries_congr (ft : Features)
    (disk : String → Except Error Pass) (a b : Archive)
    (hf : a.format = b.format) (hp : a.path = b.path) :
    (Archive.entries ft disk a).1 = (Archive.entries ft disk b).1 := by
  unfold Archive.entries Archive.entries_iter Archive.archivedFresh
  rw [hp, hf]
  cases h : disk b.path with
  | error e => simp
  | ok pass => by_cases hb : backendAvailable ft b.format <;> simp [hb]

/-- C1.  On an unchanged byte source (`disk` fixed), calling `entries()`
twice in succession on the same façade returns equal results: every
pass-needing operation discards the cached backend and rebuilds a fresh one
from a freshly opened handle at the storage path, so the second call sees
the same fresh pass as the first. -/
theorem entries_twice_equal (ft : Features)
    (disk : String → Except Error Pass) (a : Archive) :
    (Archive.entries ft disk (Archive.entries ft disk a).2).1 =
      (Archive.entries ft disk a).1 := by
  have hpres := Archive.entries_preserves ft disk a
  exact Archive.entries_congr ft disk _ a hpres.1 (by unfold Archive.path; rw [hpres.2])

/-! ## C2: entry_by_name is first-exact-match of a fresh pass -/

/-- Taking one `next` of the name filter computes `firstMatchSpec`. -/
theorem next_firstMatch (target : String) (pass : Pass) :
    (match FindEntries.next (fun en => pathEq en.path target) pass with
     | (none, _) => Except.error Error.FileNotFound
     | (some r, _) => r) = firstMatchSpec target pass := by
  induction pass with
  | nil => simp [FindEntries.next, firstMatchSpec]
  | cons x rest ih =>
    match x with
    | .error e => simp [FindEntries.next, firstMatchSpec]
    | .ok en =>
      by_cases hp : pathEq en.path target
      · simp [FindEntries.next, firstMatchSpec, hp]
      · rw [show FindEntries.next (fun en => pathEq en.path target) (.ok en :: rest)
              = FindEntries.next (fun en => pathEq en.path target) rest from by
            simp [FindEntries.next, hp]]
        rw [ih]
        simp [firstMatchSpec, hp]

/-- C2.  `entry_by_name(target)` returns exactly what filtering a fresh
`entries_iter` pass for path equality and taking the first item yields:
the first entry whose path equals the target, the first underlying error if
one precedes it, and `FileNotFound` when no yielded entry matches. -/
theorem entry_by_name_firstMatch (ft : Features)
    (disk : String → Except Error Pass) (a : Archive) (target : String)
    (pass : Pass) (hdisk : disk a.path = .ok pass)
    (hav : backendAvailable ft a.format = true) :
    (Archive.entry_by_name ft disk a target).1 = firstMatchSpec target pass := by
  unfold Archive.entry_by_name Archive.find Archive.entries_iter Archive.archivedFresh
  rw [hdisk]
  simp only [hav, if_true]
  have hnf := next_firstMatch target pass
  cases hnext : FindEntries.next (fun en => pathEq en.path target) pass with
  | mk first rest =>
    rw [hnext] at hnf
    cases first with
    | none => simpa [hnext] using hnf
    | some r => simpa [hnext] using hnf

/-- Witness for C2 on the sample archive contents
`{"sample/", "sample/sample.txt"}`. -/
theorem entry_by_name_firstMatch_witness :
    (Archive.entry_by_name ⟨true, true, true, true, true, true⟩
        (fun _ => .ok [.ok ⟨0, "sample/", 0, .Directory⟩,
                       .ok ⟨1, "sample/sample.txt", 7, .File⟩])
        ⟨.Zip, .FileOnDisk "tests/sample/sample.zip", none⟩
        "sample/sample.txt").1 =
      firstMatchSpec "sample/sample.txt"
        [.ok ⟨0, "sample/", 0, .Directory⟩,
         .ok ⟨1, "sample/sample.txt", 7, .File⟩] :=
  entry_by_name_firstMatch ⟨true, true, true, true, true, true⟩ _ _ _ _ rfl rfl

/-! ## C9: find() yields exactly the matching entries plus errors in place -/

/-- Unfolding equation of `FindEntries.drain`. -/
theorem FindEntries.drain_eq (p : Entry → Bool) (l : Pass) :
    FindEntries.drain p l =
      (match FindEntries.next p l with
       | (none, _) => []
       | (some r, rest) => r :: FindEntries.drain p rest) := by
  rw [FindEntries.drain]
  cases hnext : FindEntries.next p l with
  | mk first rest => cases first <;> simp [hnext]

/-- Repeatedly calling `FindEntries::next` yields exactly the filter of the
underlying pass keeping matching entries and every error. -/
theorem FindEntries.drain_filter (p : Entry → Bool) :
    ∀ l : Pass, FindEntries.drain p l = l.filter (keepItem p) := by
  intro l
  induction l with
  | nil => rw [FindEntries.drain_eq]; simp [FindEntries.next]
  | cons x rest ih =>
    match x with
    | .error e =>
      rw [FindEntries.drain_eq]
      simp [FindEntries.next, keepItem, ih]
    | .ok en =>
      by_cases hp : p en
      · rw [FindEntries.drain_eq]
        simp [FindEntries.next, hp, keepItem, ih]
      · rw [FindEntries.drain_eq]
        rw [show FindEntries.next p (.ok en :: rest) = FindEntries.next p rest from by
              simp [FindEntries.next, hp]]
        rw [← FindEntries.drain_eq]
        simp [List.filter, keepItem, hp, ih]

/-- C9.  `find(p)` wraps a fresh `entries_iter` pass, and draining it yields,
in order, exactly the entries of that pass satisfying `p` together with every
underlying `Err` item at the position where it occurs. -/
theorem find_filters_fresh_pass (ft : Features)
    (disk : String → Except Error Pass) (a : Archive) (p : Entry → Bool)
    (pass : Pass) (hdisk : disk a.path = .ok pass)
    (hav : backendAvailable ft a.format = true) :
    (Archive.find ft disk a p).1 = .ok ⟨p, pass⟩ ∧
      FindEntries.drain p pass = pass.filter (keepItem p) := by
  constructor
  · unfold Archive.find Archive.entries_iter Archive.archivedFresh
    rw [hdisk]
    simp [hav]
  · exact FindEntries.drain_filter p pass

/-- Witness for C9 on a pass containing an error item between two entries:
the drained filter keeps the error at its position and the matching entry. -/
theorem find_filters_fresh_pass_witness :
    (Archive.find ⟨true, true, true, true, true, true⟩
        (fun _ => .ok [.ok ⟨0, "sample/", 0, .Directory⟩,
                       .error (.Io "stream broke"),
                       .ok ⟨1, "sample/sample.txt", 7, .File⟩])
        ⟨.TarGzip, .FileOnDisk "tests/sample/sample.tar.gz", none⟩
        (fun en => en.is_file)).1 =
      .ok ⟨(fun en => en.is_file),
           [.ok ⟨0, "sample/", 0, .Directory⟩,
            .error (.Io "stream broke"),
            .ok ⟨1, "sample/sample.txt", 7, .File⟩]⟩ ∧
    FindEntries.drain (fun en => en.is_file)
        [.ok ⟨0, "sample/", 0, .Directory⟩,
         .error (.Io "stream broke"),
         .ok ⟨1, "sample/sample.txt", 7, .File⟩] =
      List.filter (keepItem (fun en => en.is_file))
        [.ok ⟨0, "sample/", 0, .Directory⟩,
         .error (.Io "stream broke"),
         .ok ⟨1, "sample/sample.txt", 7, .File⟩] :=
  find_filters_fresh_pass ⟨true, true, true, true, true, true⟩ _ _ _ _ rfl rfl

/-! ## C8: is_archive / is_compressed -/

/-- C8.  `is_archive` is true exactly on `Zip`, `Tar` and the four
`Tar`+codec tags, and `is_compressed` is true on every format except plain
`Tar` (`Unknown` included). -/
theorem is_archive_is_compressed_characterization (f : Format) :
    (f.is_archive = true ↔
      (f = .Zip ∨ f = .Tar ∨ f = .TarGzip ∨ f = .TarBzip2 ∨
        f = .TarXz2 ∨ f = .TarZstd)) ∧
    (f.is_compressed = true ↔ f ≠ .Tar) := by
  cases f <;> simp [Format.is_archive, Format.is_compressed]

/-! ## C6: what open() rejects, and when missing backends surface -/

/-- C6 counterexample.  With only the `zip` feature compiled in, no backend
exists for the (archive-shaped) `Tar` format, yet `open("a.tar")` succeeds —
the claim that `open` fails with `UnsupportedArchive` whenever no backend is
compiled in for the inferred format is false: `Archive::new` checks only
`is_archive`. -/
theorem open_missing_backend_counterexample :
    Archive.open "a.tar" = .ok ⟨.Tar, .FileOnDisk "a.tar", none⟩ ∧
    Format.is_archive (Format.infer_from_file_extension "a.tar") = true ∧
    backendAvailable ⟨true, false, false, false, false, false⟩
        (Format.infer_from_file_extension "a.tar") = false := by
  refine ⟨?_, by decide, by decide⟩
  rfl

/-- C6 amended.  `open(path)` fails with `UnsupportedArchive` exactly when
the inferred format is not archive-shaped; it performs no I/O (the embedding
of `Archive::new` takes no disk state at all), so it succeeds even when no
file exists at the path.  An archive-shaped format with no compiled-in
backend passes `open` and instead fails at the first pass-needing operation:
`Archive::archived` returns `UnsupportedArchive` once the byte source has
been opened. -/
theorem open_unsupported_iff_not_archive (path : String) (ft : Features)
    (disk : String → Except Error Pass) (pass : Pass) :
    ((Format.infer_from_file_extension path).is_archive = false →
      Archive.open path =
        .error (.UnsupportedArchive "unsupported format, did you enable the proper feature?")) ∧
    ((Format.infer_from_file_extension path).is_archive = true →
      Archive.open path =
        .ok ⟨Format.infer_from_file_extension path, .FileOnDisk path, none⟩) ∧
    (∀ a : Archive, Archive.open path = .ok a → disk a.path = .ok pass →
      backendAvailable ft a.format = false →
      Archive.archivedFresh ft disk a =
        .error (.UnsupportedArchive "unsupported format, did you enable the proper feature?")) := by
  refine ⟨?_, ?_, ?_⟩
  · intro h
    unfold Archive.open Archive.new
    simp [Storage.as_path, h]
  · intro h
    unfold Archive.open Archive.new
    simp [Storage.as_path, h]
  · intro a _ hdisk hav
    unfold Archive.archivedFresh
    rw [hdisk]
    simp [hav]

/-- Witness for C6 (amended): `open` on a missing `.tgz` file succeeds, a
bare `.gz` is rejected, and the zip-only feature set rejects the tar backend
at `archived` time. -/
theorem open_unsupported_iff_not_archive_witness :
    Archive.open "no/such/file.tgz" =
      .ok ⟨Format.infer_from_file_extension "no/such/file.tgz",
           .FileOnDisk "no/such/file.tgz", none⟩ ∧
    Archive.open "sample.gz" =
      .error (.UnsupportedArchive "unsupported format, did you enable the proper feature?") ∧
    Archive.archivedFresh ⟨true, false, false, false, false, false⟩ (fun _ => .ok [])
        ⟨.Tar, .FileOnDisk "a.tar", none⟩ =
      .error (.UnsupportedArchive "unsupported format, did you enable the proper feature?") :=
  ⟨(open_unsupported_iff_not_archive "no/such/file.tgz"
      ⟨true, false, false, false, false, false⟩ (fun _ => .ok []) []).2.1 (by decide),
   (open_unsupported_iff_not_archive "sample.gz"
      ⟨true, false, false, false, false, false⟩ (fun _ => .ok []) []).1 (by decide),
   (open_unsupported_iff_not_archive "a.tar"
      ⟨true, false, false, false, false, false⟩ (fun _ => .ok []) []).2.2
     ⟨.Tar, .FileOnDisk "a.tar", none⟩ (by rfl) rfl rfl⟩

/-! ## C7: the format classifier

Helper lemmas about `asciiLower`, `lastDotSplit`, `extension`, `fileStem`
under case mapping and around an appended dotted suffix. -/

theorem asciiLower_dot_iff (n : Nat) : asciiLower n = 46 ↔ n = 46 := by
  unfold asciiLower
  split <;> omega

theorem asciiLower_idem (n : Nat) : asciiLower (asciiLower n) = asciiLower n := by
  by_cases h : 65 ≤ n ∧ n ≤ 90
  · have h1 : asciiLower n = n + 32 := by unfold asciiLower; rw [if_pos h]
    have h2 : ¬(65 ≤ n + 32 ∧ n + 32 ≤ 90) := by omega
    rw [h1]
    unfold asciiLower
    rw [if_neg h2]
  · have h1 : asciiLower n = n := by unfold asciiLower; rw [if_neg h]
    rw [h1, h1]

theorem map_asciiLower_comp (l : List Nat) :
    l.map (asciiLower ∘ asciiLower) = l.map asciiLower :=
  List.map_congr_left (fun a _ => asciiLower_idem a)

theorem map_asciiLower_idem (l : List Nat) :
    (l.map asciiLower).map asciiLower = l.map asciiLower := by
  rw [List.map_map]
  exact map_asciiLower_comp l

theorem lastDotSplit_map_lower (l : List Nat) :
    lastDotSplit (l.map asciiLower) =
      (lastDotSplit l).map (fun q => (q.1.map asciiLower, q.2.map asciiLower)) := by
  induction l with
  | nil => rfl
  | cons c rest ih =>
    simp only [List.map_cons, lastDotSplit, ih]
    cases h : lastDotSplit rest with
    | some q => simp
    | none =>
      by_cases hc : c = 46
      · subst hc
        have h46 : asciiLower 46 = 46 := by decide
        simp [h46]
      · have hlc : asciiLower c ≠ 46 := fun hx => hc ((asciiLower_dot_iff c).mp hx)
        simp [hc, hlc]

theorem extension_map_lower (l : List Nat) :
    extension (l.map asciiLower) = (extension l).map (List.map asciiLower) := by
  unfold extension
  rw [lastDotSplit_map_lower]
  cases lastDotSplit l with
  | none => rfl
  | some q =>
    obtain ⟨s, e⟩ := q
    by_cases hs : s = []
    · subst hs; simp
    · have hs2 : s.map asciiLower ≠ [] := by simpa using hs
      simp [hs, hs2]

theorem fileStem_map_lower (l : List Nat) :
    fileStem (l.map asciiLower) = (fileStem l).map (List.map asciiLower) := by
  unfold fileStem
  by_cases hl : l = []
  · subst hl; simp
  · have hl2 : l.map asciiLower ≠ [] := by simpa using hl
    rw [lastDotSplit_map_lower]
    cases lastDotSplit l with
    | none => simp [hl, hl2]
    | some q =>
      obtain ⟨s, e⟩ := q
      by_cases hs : s = []
      · subst hs; simp [hl, hl2]
      · have hs2 : s.map asciiLower ≠ [] := by simpa using hs
        simp [hl, hl2, hs, hs2]

theorem matchExt1_map_lower (l ext : List Nat) :
    matchExt1 (l.map asciiLower) ext = matchExt1 l ext := by
  unfold matchExt1
  rw [extension_map_lower]
  cases extension l with
  | none => rfl
  | some e => simp [map_asciiLower_idem, map_asciiLower_comp]

theorem matchExt2_map_lower (l ext1 ext2 : List Nat) :
    matchExt2 (l.map asciiLower) ext1 ext2 = matchExt2 l ext1 ext2 := by
  unfold matchExt2
  rw [extension_map_lower, fileStem_map_lower]
  cases extension l with
  | none => rfl
  | some e =>
    cases fileStem l with
    | none => simp [map_asciiLower_idem, map_asciiLower_comp]
    | some st => simp [map_asciiLower_idem, map_asciiLower_comp, matchExt1_map_lower]

theorem inferName_map_lower (l : List Nat) :
    inferName (l.map asciiLower) = inferName l := by
  unfold inferName
  simp only [matchExt1_map_lower, matchExt2_map_lower]

theorem lastDotSplit_no_dot (r : List Nat) (h : 46 ∉ r) : lastDotSplit r = none := by
  induction r with
  | nil => rfl
  | cons c rest ih =>
    simp only [List.mem_cons, not_or] at h
    unfold lastDotSplit
    rw [ih h.2]
    have : c ≠ 46 := fun hx => h.1 hx.symm
    simp [this]

theorem lastDotSplit_append (l r : List Nat) (h : 46 ∉ r) :
    lastDotSplit (l ++ 46 :: r) = some (l, r) := by
  induction l with
  | nil =>
    simp only [List.nil_append]
    unfold lastDotSplit
    rw [lastDotSplit_no_dot r h]
    simp
  | cons c rest ih =>
    simp only [List.cons_append]
    unfold lastDotSplit
    rw [ih]

theorem extension_append (l r : List Nat) (h46 : 46 ∉ r) (hl : l ≠ []) :
    extension (l ++ 46 :: r) = some r := by
  unfold extension
  rw [lastDotSplit_append l r h46]
  simp [hl]

theorem fileStem_append (l r : List Nat) (h46 : 46 ∉ r) (hl : l ≠ []) :
    fileStem (l ++ 46 :: r) = some l := by
  unfold fileStem
  have hne : l ++ 46 :: r ≠ [] := by simp
  rw [lastDotSplit_append l r h46]
  simp [hne, hl]

theorem fileStem_some_of_extension (name e : List Nat)
    (h : extension name = some e) : ∃ st, fileStem name = some st := by
  unfold extension at h
  cases hld : lastDotSplit name with
  | none => rw [hld] at h; simp at h
  | some q =>
    obtain ⟨s, e0⟩ := q
    rw [hld] at h
    by_cases hs : s = []
    · simp [hs] at h
    · refine ⟨s, ?_⟩
      have hname : name ≠ [] := by
        intro hn
        rw [hn] at hld
        simp [lastDotSplit] at hld
      unfold fileStem
      simp [hname, hld, hs]

/-- The decision chain of `inferName` once the (lower-cased) final extension
`le` and whether the stem in turn has extension `tar` are known. -/
def inferChain (le : List Nat) (innerTar : Bool) : Format :=
  if le = strBytes "zip" then .Zip
  else if le = strBytes "tar" then .Tar
  else if le = strBytes "tgz" ∨ (le = strBytes "gz" ∧ innerTar = true) then .TarGzip
  else if le = strBytes "xz" ∧ innerTar = true then .TarXz2
  else if le = strBytes "bz2" ∧ innerTar = true then .TarBzip2
  else if (le = strBytes "zstd" ∧ innerTar = true) ∨ (le = strBytes "zst" ∧ innerTar = true) then .TarZstd
  else if le = strBytes "gz" then .Gzip
  else if le = strBytes "xz" then .Xz2
  else if le = strBytes "bz2" then .Bzip2
  else if le = strBytes "zstd" ∨ le = strBytes "zst" then .Zstd
  else .Unknown

theorem inferName_reduce (name e st : List Nat) (b : Bool)
    (hext : extension name = some e) (hstem : fileStem name = some st)
    (hb : matchExt1 st (strBytes "tar") = b) :
    inferName name = inferChain (e.map asciiLower) b := by
  unfold inferName inferChain
  simp only [matchExt2, hext, hstem, hb]
  simp only [matchExt1, hext, hb]
  simp [Bool.and_eq_true, decide_eq_true_eq]

theorem inferName_of_no_extension (name : List Nat)
    (hext : extension name = none) : inferName name = .Unknown := by
  unfold inferName
  simp only [matchExt1, matchExt2, hext]
  simp

theorem inferChain_unknown (le : List Nat) (b : Bool)
    (h : le ∉ [strBytes "zip", strBytes "tar", strBytes "tgz", strBytes "gz",
      strBytes "xz", strBytes "bz2", strBytes "zstd", strBytes "zst"]) :
    inferChain le b = .Unknown := by
  simp only [List.mem_cons, List.mem_singleton, not_or] at h
  obtain ⟨h1, h2, h3, h4, h5, h6, h7, h8⟩ := h
  simp [inferChain, h1, h2, h3, h4, h5, h6, h7, h8]

/-- C7.  The format classifier is a pure total function on file names:
(1) it is case-insensitive — names identical up to ASCII case infer the same
`Format`; (2) on any non-empty slash-free base name it recognizes the
compound suffixes `tar.gz`, `tar.bz2`, `tar.xz`, `tar.zst`/`tar.zstd` ahead
of the corresponding single codec suffixes, and maps the bare `tgz` suffix
to `TarGzip`; (3) a name with no extension, or whose final extension
lower-cases to none of the recognized suffixes, infers `Unknown`. -/
theorem infer_caseless_compound_unknown :
    (∀ s t : List Nat, s.map asciiLower = t.map asciiLower →
      inferName s = inferName t) ∧
    (∀ s : List Nat, s ≠ [] → 47 ∉ s →
      inferName (s ++ strBytes ".tar.gz") = .TarGzip ∧
      inferName (s ++ strBytes ".tar.bz2") = .TarBzip2 ∧
      inferName (s ++ strBytes ".tar.xz") = .TarXz2 ∧
      inferName (s ++ strBytes ".tar.zst") = .TarZstd ∧
      inferName (s ++ strBytes ".tar.zstd") = .TarZstd ∧
      inferName (s ++ strBytes ".tgz") = .TarGzip) ∧
    (∀ s : List Nat,
      (extension s = none → inferName s = .Unknown) ∧
      (∀ e, extension s = some e →
        e.map asciiLower ∉ [strBytes "zip", strBytes "tar", strBytes "tgz",
          strBytes "gz", strBytes "xz", strBytes "bz2", strBytes "zstd",
          strBytes "zst"] →
        inferName s = .Unknown)) := by
  refine ⟨?_, ?_, ?_⟩
  · intro s t h
    calc inferName s = inferName (s.map asciiLower) := (inferName_map_lower s).symm
      _ = inferName (t.map asciiLower) := by rw [h]
      _ = inferName t := inferName_map_lower t
  · intro s hs _
    have tgz : strBytes ".tar.gz" = [46, 116, 97, 114] ++ 46 :: [103, 122] := by decide
    have tbz : strBytes ".tar.bz2" = [46, 116, 97, 114] ++ 46 :: [98, 122, 50] := by decide
    have txz : strBytes ".tar.xz" = [46, 116, 97, 114] ++ 46 :: [120, 122] := by decide
    have tzs : strBytes ".tar.zst" = [46, 116, 97, 114] ++ 46 :: [122, 115, 116] := by decide
    have tzsd : strBytes ".tar.zstd" = [46, 116, 97, 114] ++ 46 :: [122, 115, 116, 100] := by decide
    have tg : strBytes ".tgz" = 46 :: [116, 103, 122] := by decide
    have hstemInner : extension (s ++ [46, 116, 97, 114]) = some [116, 97, 114] :=
      extension_append s [116, 97, 114] (by decide) hs
    have hInner : matchExt1 (s ++ [46, 116, 97, 114]) (strBytes "tar") = true := by
      unfold matchExt1
      rw [hstemInner]
      decide
    have compound : ∀ tail : List Nat, 46 ∉ tail →
        inferName ((s ++ [46, 116, 97, 114]) ++ 46 :: tail) =
          inferChain (tail.map asciiLower) true := by
      intro tail htail
      have hne : s ++ [46, 116, 97, 114] ≠ [] := by simp
      exact inferName_reduce _ tail _ true
        (extension_append _ tail htail hne)
        (fileStem_append _ tail htail hne) hInner
    refine ⟨?_, ?_, ?_, ?_, ?_, ?_⟩
    · rw [tgz, ← List.append_assoc, compound [103, 122] (by decide)]; decide
    · rw [tbz, ← List.append_assoc, compound [98, 122, 50] (by decide)]; decide
    · rw [txz, ← List.append_assoc, compound [120, 122] (by decide)]; decide
    · rw [tzs, ← List.append_assoc, compound [122, 115, 116] (by decide)]; decide
    · rw [tzsd, ← List.append_assoc, compound [122, 115, 116, 100] (by decide)]; decide
    · rw [tg]
      have hext : extension (s ++ 46 :: [116, 103, 122]) = some [116, 103, 122] :=
        extension_append s [116, 103, 122] (by decide) hs
      have hstem : fileStem (s ++ 46 :: [116, 103, 122]) = some s :=
        fileStem_append s [116, 103, 122] (by decide) hs
      rw [inferName_reduce _ [116, 103, 122] s (matchExt1 s (strBytes "tar"))
            hext hstem rfl]
      cases matchExt1 s (strBytes "tar") <;> decide
  · intro s
    refine ⟨inferName_of_no_extension s, ?_⟩
    intro e hext hmem
    obtain ⟨st, hstem⟩ := fileStem_some_of_extension s e hext
    rw [inferName_reduce s e st (matchExt1 st (strBytes "tar")) hext hstem rfl]
    exact inferChain_unknown (e.map asciiLower) _ hmem

/-- Witness for C7: concrete instances of each conjunct. -/
theorem infer_caseless_compound_unknown_witness :
    inferName (strBytes "sample.TAR.GZ") = inferName (strBytes "sample.tar.gz") ∧
    inferName (strBytes "sample" ++ strBytes ".tar.gz") = .TarGzip ∧
    inferName (strBytes "sample" ++ strBytes ".tgz") = .TarGzip ∧
    inferName (strBytes "sample.exe") = .Unknown :=
  ⟨infer_caseless_compound_unknown.1 _ _ (by decide),
   (infer_caseless_compound_unknown.2.1 (strBytes "sample") (by decide) (by decide)).1,
   (infer_caseless_compound_unknown.2.1 (strBytes "sample") (by decide) (by decide)).2.2.2.2.2,
   (infer_caseless_compound_unknown.2.2 (strBytes "sample.exe")).2
     (strBytes "exe") (by decide) (by decide)⟩

/-! ## Filesystem model

The filesystem is a path-addressable store: a set of directories and a map
from file paths to contents plus an optional POSIX mode.  Paths are indexed
by their parsed components. -/

/-- Contents of one stored file: bytes plus optional POSIX mode bits. -/
structure FSFile where
  bytes : List Nat
  mode : Option Nat
deriving DecidableEq, Repr

/-- The filesystem state. -/
structure FS where
  dirs : List (List (List Char))
  files : List (List (List Char) × FSFile)
deriving DecidableEq, Repr

/-- Is there a directory at `p`? -/
def FS.hasDir (fs : FS) (p : List (List Char)) : Bool :=
  fs.dirs.contains p

/-- Is there a file at `p`? -/
def FS.hasFile (fs : FS) (p : List (List Char)) : Bool :=
  fs.files.any (fun q => q.1 == p)

/-- `Path::exists`: a directory or a file is present at `p`. -/
def FS.pathExists (fs : FS) (p : List (List Char)) : Bool :=
  fs.hasDir p || fs.hasFile p

/-- All non-empty prefixes of a component path (the directories
`create_dir_all` must produce). -/
def ancestorsOf (p : List (List Char)) : List (List (List Char)) :=
  (List.range p.length).map (fun i => p.take (i + 1))

/-- `std::fs::create_dir_all`: create every missing ancestor directory;
fails when a file occupies any of them. -/
def FS.create_dir_all (fs : FS) (p : List (List Char)) : Except Error FS :=
  if (ancestorsOf p).any (fun q => fs.hasFile q) then
    .error (.Io "cannot create directory: a file is in the way")
  else
    .ok { fs with dirs := fs.dirs ++ (ancestorsOf p).filter (fun q => !fs.hasDir q) }

/-- `File::create`: truncating create; fails when a directory sits at the
path or the parent directory is missing. -/
def FS.createFile (fs : FS) (p : List (List Char)) : Except Error FS :=
  if fs.hasDir p then .error (.Io "is a directory")
  else if p.dropLast ≠ [] ∧ ¬ fs.hasDir p.dropLast = true then
    .error (.Io "no such file or directory")
  else
    .ok { fs with files := (p, ⟨[], none⟩) :: fs.files.filter (fun q => q.1 ≠ p) }

/-- Overwrite the contents of the file at `p` (an `io::copy` into a freshly
created file). -/
def FS.writeFile (fs : FS) (p : List (List Char)) (b : List Nat) : FS :=
  { fs with files := fs.files.map (fun q => if q.1 = p then (p, ⟨b, q.2.mode⟩) else q) }

/-- Append bytes to the file at `p` (a `write_all` of one chunk). -/
def FS.appendFile (fs : FS) (p : List (List Char)) (b : List Nat) : FS :=
  { fs with files := fs.files.map (fun q => if q.1 = p then (p, ⟨q.2.bytes ++ b, q.2.mode⟩) else q) }

/-- `set_permissions(outpath, Permissions::from_mode(mode))`. -/
def FS.setMode (fs : FS) (p : List (List Char)) (m : Nat) : FS :=
  { fs with files := fs.files.map (fun q => if q.1 = p then (p, ⟨q.2.bytes, some m⟩) else q) }

/-- `dest.join(entry.path())` as components (entry paths are relative). -/
def joinUnder (dest : String) (p : String) : List (List Char) :=
  pathComponents dest ++ pathComponents p

/-! ## Zip backend `unpack_entry` (src/zip.rs:82-106)

The opened zip container is the indexed list of its stored files
(`by_index` view): path, contents, optional `unix_mode`. -/

/-- One file stored in a zip container, as `by_index` exposes it. -/
structure ZFile where
  path : String
  bytes : List Nat
  unix_mode : Option Nat
deriving DecidableEq, Repr

/-- `ZipArchive::by_index`: out-of-range positions raise
`ZipError::FileNotFound`, converted to `Error::FileNotFound`. -/
def zipByIndex (zc : List ZFile) (i : Nat) : Except Error ZFile :=
  match zc.get? i with
  | some f => .ok f
  | none => .error .FileNotFound

/-- `<ZipArchive as Archived>::unpack_entry`: directories are created
(zero bytes written) and the call succeeds; files get missing parent
directories created, are looked up by stored index, stream-copied, and on
POSIX the recorded mode bits are restored.  Anything else is a silent
no-op success. -/
def zipUnpackEntry (zc : List ZFile) (entry : Entry) (dest : String)
    (fs : FS) : Except Error Unit × FS :=
  let outpath := joinUnder dest entry.path
  if entry.is_dir then
    match fs.create_dir_all outpath with
    | .error e => (.error e, fs)
    | .ok fs1 => (.ok (), fs1)
  else if entry.is_file then
    let parentStep : Except Error FS :=
      match outpath.dropLast with
      | [] => .ok fs
      | parent =>
        if fs.pathExists parent then .ok fs
        else fs.create_dir_all parent
    match parentStep with
    | .error e => (.error e, fs)
    | .ok fs1 =>
      match zipByIndex zc entry.index with
      | .error e => (.error e, fs1)
      | .ok zf =>
        match fs1.createFile outpath with
        | .error e => (.error e, fs1)
        | .ok fs2 =>
          let fs3 := fs2.writeFile outpath zf.bytes
          match zf.unix_mode with
          | some m => (.ok (), fs3.setMode outpath m)
          | none => (.ok (), fs3)
  else (.ok (), fs)

/-! ## Tar backend `unpack_entry` (src/tar.rs:55-76)

The freshly opened tar container is the list of its entries in stream
order; each item is either an I/O/parse error or a stored file (path,
contents, recorded mode). -/

/-- One file stored in a tar container. -/
structure TFile where
  path : String
  bytes : List Nat
  mode : Option Nat
deriving DecidableEq, Repr

/-- `tar::Entry::unpack` for the matched entry: create the file, write its
bytes, and restore the recorded mode bits (POSIX). -/
def tarEntryUnpack (tf : TFile) (outpath : List (List Char))
    (fs : FS) : Except Error FS :=
  match fs.createFile outpath with
  | .error e => .error e
  | .ok fs1 =>
    let fs2 := fs1.writeFile outpath tf.bytes
    .ok (match tf.mode with
         | some m => fs2.setMode outpath m
         | none => fs2)

/-- The re-scan loop of the tar `unpack_entry`: walk the fresh pass
comparing paths; unpack the first match and return `Ok`; propagate item
errors; fall out to `FileNotFound`. -/
def tarScanUnpack (target : String) (outpath : List (List Char)) :
    List (Except Error TFile) → FS → Except Error Unit × FS
  | [], fs => (.error .FileNotFound, fs)
  | .error e :: _, fs => (.error e, fs)
  | .ok tf :: rest, fs =>
    if pathEq tf.path target then
      match tarEntryUnpack tf outpath fs with
      | .error e => (.error e, fs)
      | .ok fs1 => (.ok (), fs1)
    else tarScanUnpack target outpath rest fs

/-- `<tar::Archive as Archived>::unpack_entry`.  Note the control flow of
the source: the directory branch creates the directory and then falls
through to the final `Err(Error::FileNotFound)` expression; only the file
branch can return `Ok(())`. -/
def tarUnpackEntry (tc : List (Except Error TFile)) (entry : Entry)
    (dest : String) (fs : FS) : Except Error Unit × FS :=
  let outpath := joinUnder dest entry.path
  if entry.is_dir then
    match fs.create_dir_all outpath with
    | .error e => (.error e, fs)
    | .ok fs1 => (.error .FileNotFound, fs1)
  else if entry.is_file then
    let parentStep : Except Error FS :=
      match outpath.dropLast with
      | [] => .ok fs
      | parent =>
        if fs.pathExists parent then .ok fs
        else fs.create_dir_all parent
    match parentStep with
    | .error e => (.error e, fs)
    | .ok fs1 => tarScanUnpack entry.path outpath tc fs1
  else (.error .FileNotFound, fs)

/-! ## C3 / C10: unpack_entry behavior -/

/-- C3 divergence, evaluated.  Extracting a previously enumerated
*directory* entry into an empty filesystem: the zip backend creates the
directory, writes no file bytes and returns success, but the tar backend —
whose directory branch falls through to the trailing
`Err(Error::FileNotFound)` — creates the directory and then reports
`FileNotFound` instead of success. -/
theorem unpack_entry_directory_divergence :
    (zipUnpackEntry [] ⟨0, "sample/", 0, .Directory⟩ "out" ⟨[], []⟩).1 = .ok () ∧
    (zipUnpackEntry [] ⟨0, "sample/", 0, .Directory⟩ "out" ⟨[], []⟩).2.hasDir
        (joinUnder "out" "sample/") = true ∧
    (zipUnpackEntry [] ⟨0, "sample/", 0, .Directory⟩ "out" ⟨[], []⟩).2.files = [] ∧
    (tarUnpackEntry [] ⟨0, "sample/", 0, .Directory⟩ "out" ⟨[], []⟩).1 =
        .error .FileNotFound ∧
    (tarUnpackEntry [] ⟨0, "sample/", 0, .Directory⟩ "out" ⟨[], []⟩).2.hasDir
        (joinUnder "out" "sample/") = true ∧
    (tarUnpackEntry [] ⟨0, "sample/", 0, .Directory⟩ "out" ⟨[], []⟩).2.files = [] := by
  decide

/-- C10.  On the tar backend, `unpack_entry` with an entry that is neither
a regular file nor a directory takes neither branch: it touches nothing on
the filesystem and returns `FileNotFound`. -/
theorem tar_unpack_other_entry (tc : List (Except Error TFile)) (entry : Entry)
    (dest : String) (fs : FS) (h : entry.entry_type = .Other) :
    tarUnpackEntry tc entry dest fs = (.error .FileNotFound, fs) := by
  have hd : entry.is_dir = false := by simp [Entry.is_dir, h]
  have hf : entry.is_file = false := by simp [Entry.is_file, h]
  unfold tarUnpackEntry
  simp [hd, hf]

/-- Witness for C10: a character-device-like entry. -/
theorem tar_unpack_other_entry_witness :
    tarUnpackEntry [] ⟨0, "dev/null", 0, .Other⟩ "out" ⟨[], []⟩ =
      (.error .FileNotFound, ⟨[], []⟩) :=
  tar_unpack_other_entry [] ⟨0, "dev/null", 0, .Other⟩ "out" ⟨[], []⟩ rfl

/-! ## Downloader (src/download.rs)

The typestate builder is compile-time bookkeeping; what `download()` runs
once URL and destination are both set is embedded here.  The HTTP response
is a parameter: either the transport/status error message (mapped to
`InvalidRequest`) or, for the progress variant, the optional
`content-length` header together with the reader's chunk stream. -/

/-- `DestProvided`: where the archive file is to be stored. -/
inductive DestProvided where
  | TempDir
  | Dir (path : String)

/-- `Path::new(url).file_name()`: the last component, unless it is a
current/parent-directory or root component. -/
def fileNameOf (url : String) : Option String :=
  match (pathComponents url).getLast? with
  | some c =>
    if c = ['/'] ∨ c = ['.'] ∨ c = ['.', '.'] then none else some (String.mk c)
  | none => none

/-- `Downloader::storage` (src/download.rs:162-177): derive the file name
from the URL (`InvalidUrl` when absent) and build the `Storage`; the
temp-dir variant creates the temporary directory (`tempfile::tempdir()`),
so the filesystem is threaded. -/
def Downloader.storageStep (url : String) (dest : DestProvided)
    (tempRoot : String) (fs : FS) : Except Error Storage × FS :=
  match fileNameOf url with
  | none => (.error (.InvalidUrl url), fs)
  | some name =>
    match dest with
    | .TempDir =>
      (.ok (.FileInTempDirectory tempRoot name),
        { fs with dirs := fs.dirs ++ [pathComponents tempRoot] })
    | .Dir d => (.ok (.FileOnDisk (d ++ "/" ++ name)), fs)

/-- `Storage::create` (src/archive.rs:57-63): for `FileOnDisk` first run
`create_dir_all` **on the full file path**, then `File::create` at
`as_path` in both variants. -/
def Storage.create (st : Storage) (fs : FS) : Except Error Unit × FS :=
  match st with
  | .FileOnDisk path =>
    match fs.create_dir_all (pathComponents path) with
    | .error e => (.error e, fs)
    | .ok fs1 =>
      match fs1.createFile (pathComponents path) with
      | .error e => (.error e, fs1)
      | .ok fs2 => (.ok (), fs2)
  | .FileInTempDirectory t n =>
    match fs.createFile (pathComponents (t ++ "/" ++ n)) with
    | .error e => (.error e, fs)
    | .ok fs2 => (.ok (), fs2)

/-- `Downloader::download` without a progress callback
(src/download.rs:193-203): GET, derive storage, create the file, copy the
whole body, then `Archive::new` over the storage. -/
def downloadNoProgress (resp : Except String (List Nat)) (url : String)
    (dest : DestProvided) (tempRoot : String) (fs : FS) :
    Except Error Archive × FS :=
  match resp with
  | .error msg => (.error (.InvalidRequest msg), fs)
  | .ok bytes =>
    match Downloader.storageStep url dest tempRoot fs with
    | (.error e, fs0) => (.error e, fs0)
    | (.ok st, fs0) =>
      match st.create fs0 with
      | (.error e, fs1) => (.error e, fs1)
      | (.ok _, fs1) =>
        let fs2 := fs1.writeFile (pathComponents st.as_path) bytes
        match Archive.new st with
        | .error e => (.error e, fs2)
        | .ok a => (.ok a, fs2)

/-- One result of `source.read(&mut buf)` in the chunked copy loop. -/
inductive ReadEvent where
  | chunk : List Nat → ReadEvent
  | interrupted : ReadEvent
  | fail : String → ReadEvent

/-- `str::parse::<u64>`: optional leading `+`, at least one ASCII digit,
all digits, value below `2 ^ 64`. -/
def parseU64 (s : String) : Option Nat :=
  let ds := match s.data with
            | '+' :: rest => rest
            | l => l
  if ds = [] then none
  else if ds.all (fun c => 48 ≤ c.toNat ∧ c.toNat ≤ 57) then
    let v := ds.foldl (fun acc c => acc * 10 + (c.toNat - 48)) 0
    if v < 2 ^ 64 then some v else none
  else none

/-- The chunked copy loop of the progress `download`
(src/download.rs:229-241): before every read the callback fires with
`(written, total)`; `Ok(0)` (stream end) returns `Archive::new(storage)`,
interrupted reads retry, other read errors surface; chunks are appended to
the destination file and counted. -/
def copyLoop (st : Storage) (total : Nat) :
    List ReadEvent → Nat → List (Nat × Nat) → FS →
      List (Nat × Nat) × (Except Error Archive × FS)
  | [], written, calls, fs =>
    (calls ++ [(written, total)], (Archive.new st, fs))
  | .chunk [] :: _, written, calls, fs =>
    (calls ++ [(written, total)], (Archive.new st, fs))
  | .chunk b :: rest, written, calls, fs =>
    copyLoop st total rest (written + b.length) (calls ++ [(written, total)])
      (fs.appendFile (pathComponents st.as_path) b)
  | .interrupted :: rest, written, calls, fs =>
    copyLoop st total rest written (calls ++ [(written, total)]) fs
  | .fail msg :: _, written, calls, fs =>
    (calls ++ [(written, total)], (.error (.Io msg), fs))

/-- `Downloader::download` with a progress callback
(src/download.rs:212-242): requires a parsable `content-length` header
before anything else, then storage, file creation and the chunked copy
loop.  The first returned component is the list of progress invocations. -/
def downloadProgress (resp : Except String (Option String × List ReadEvent))
    (url : String) (dest : DestProvided) (tempRoot : String) (fs : FS) :
    List (Nat × Nat) × (Except Error Archive × FS) :=
  match resp with
  | .error msg => ([], (.error (.InvalidRequest msg), fs))
  | .ok (header, events) =>
    match header with
    | none =>
      ([], (.error (.InvalidRequest "response does not contain 'content-length' header"), fs))
    | some h =>
      match parseU64 h with
      | none =>
        ([], (.error (.InvalidRequest "'content-length' in the response header could not be parsed"), fs))
      | some total =>
        match Downloader.storageStep url dest tempRoot fs with
        | (.error e, fs0) => ([], (.error e, fs0))
        | (.ok st, fs0) =>
          match st.create fs0 with
          | (.error e, fs1) => ([], (.error e, fs1))
          | (.ok _, fs1) => copyLoop st total events 0 [] fs1

/-- Spec-side trace of progress invocations: one call per read, carrying
the bytes written so far and the total, as §4.4 of the spec puts it. -/
def progressCalls (total : Nat) : List ReadEvent → Nat → List (Nat × Nat)
  | [], w => [(w, total)]
  | .chunk b :: rest, w => (w, total) :: progressCalls total rest (w + b.length)
  | .interrupted :: rest, w => (w, total) :: progressCalls total rest w
  | .fail _ :: _, w => [(w, total)]

/-- Total bytes carried by the chunk events. -/
def sumChunks : List ReadEvent → Nat
  | [] => 0
  | .chunk b :: rest => b.length + sumChunks rest
  | _ :: rest => sumChunks rest

/-- A stream that runs to completion: no failing reads and no premature
`Ok(0)` (empty chunk) before the end. -/
def cleanEvents : List ReadEvent → Bool
  | [] => true
  | .chunk b :: rest => b ≠ [] && cleanEvents rest
  | .interrupted :: rest => cleanEvents rest
  | .fail _ :: _ => false

/-! ## C5: download().to_directory(d) -/

/-- C5 divergence, evaluated.  `Storage::create` runs `create_dir_all` on
the **full file path** `d/sample.zip` (not on `d`), so the path the
response bytes should be written to becomes a directory and the subsequent
`File::create` fails: `download()` over a named directory returns an `Io`
error, a spurious directory `d/sample.zip` exists, and no file was
materialized. -/
theorem download_to_directory_bug :
    (downloadNoProgress (.ok [80, 75, 3, 4]) "http://host/sample.zip"
        (.Dir "d") "tmp" ⟨[], []⟩).1 = .error (.Io "is a directory") ∧
    (downloadNoProgress (.ok [80, 75, 3, 4]) "http://host/sample.zip"
        (.Dir "d") "tmp" ⟨[], []⟩).2.hasDir (pathComponents "d/sample.zip") = true ∧
    (downloadNoProgress (.ok [80, 75, 3, 4]) "http://host/sample.zip"
        (.Dir "d") "tmp" ⟨[], []⟩).2.files = [] := by
  decide

/-! ## C4: the progress callback contract -/

theorem copyLoop_calls (st : Storage) (total : Nat) :
    ∀ (events : List ReadEvent) (w : Nat) (calls : List (Nat × Nat)) (fs : FS),
      cleanEvents events = true →
      (copyLoop st total events w calls fs).1 = calls ++ progressCalls total events w := by
  intro events
  induction events with
  | nil => intro w calls fs _; simp [copyLoop, progressCalls]
  | cons ev rest ih =>
    intro w calls fs hc
    match ev with
    | .chunk b =>
      simp only [cleanEvents, Bool.and_eq_true] at hc
      have hb : b ≠ [] := by simpa using hc.1
      match b, hb with
      | x :: xs, _ =>
        simp only [copyLoop, progressCalls]
        rw [ih _ _ _ hc.2]
        simp
    | .interrupted =>
      simp only [cleanEvents] at hc
      simp only [copyLoop, progressCalls]
      rw [ih _ _ _ hc]
      simp
    | .fail m => simp [cleanEvents] at hc

theorem copyLoop_result (st : Storage) (total : Nat) :
    ∀ (events : List ReadEvent) (w : Nat) (calls : List (Nat × Nat)) (fs : FS),
      cleanEvents events = true →
      (copyLoop st total events w calls fs).2.1 = Archive.new st := by
  intro events
  induction events with
  | nil => intro w calls fs _; simp [copyLoop]
  | cons ev rest ih =>
    intro w calls fs hc
    match ev with
    | .chunk b =>
      simp only [cleanEvents, Bool.and_eq_true] at hc
      have hb : b ≠ [] := by simpa using hc.1
      match b, hb with
      | x :: xs, _ =>
        simp only [copyLoop]
        exact ih _ _ _ hc.2
    | .interrupted =>
      simp only [cleanEvents] at hc
      simp only [copyLoop]
      exact ih _ _ _ hc
    | .fail m => simp [cleanEvents] at hc

theorem progressCalls_head (total : Nat) (events : List ReadEvent) (w : Nat) :
    (progressCalls total events w).head? = some (w, total) := by
  cases events with
  | nil => rfl
  | cons ev rest => cases ev <;> rfl

theorem progressCalls_ne_nil (total : Nat) (events : List ReadEvent) (w : Nat) :
    progressCalls total events w ≠ [] := by
  cases events with
  | nil => simp [progressCalls]
  | cons ev rest => cases ev <;> simp [progressCalls]

theorem progressCalls_getLast (total : Nat) :
    ∀ (events : List ReadEvent) (w : Nat), cleanEvents events = true →
      (progressCalls total events w).getLast? = some (w + sumChunks events, total) := by
  intro events
  induction events with
  | nil => intro w _; simp [progressCalls, sumChunks]
  | cons ev rest ih =>
    intro w hc
    match ev with
    | .chunk b =>
      simp only [cleanEvents, Bool.and_eq_true] at hc
      simp only [progressCalls, sumChunks]
      have hne := progressCalls_ne_nil total rest (w + b.length)
      match hpc : progressCalls total rest (w + b.length), hne with
      | y :: ys, _ =>
        rw [List.getLast?_cons_cons, ← hpc, ih _ hc.2]
        congr 1
        rw [Prod.mk.injEq]
        omega
    | .interrupted =>
      simp only [cleanEvents] at hc
      simp only [progressCalls, sumChunks]
      have hne := progressCalls_ne_nil total rest w
      match hpc : progressCalls total rest w, hne with
      | y :: ys, _ =>
        rw [List.getLast?_cons_cons, ← hpc, ih _ hc]
    | .fail m => simp [cleanEvents] at hc

/-- C4.  With a progress callback set, `download()` fails with
`InvalidRequest` when the response has no `content-length` header or the
header does not parse as an integer; otherwise, when the copy of `total`
bytes completes successfully, the callback fires before each chunk read
with `(bytes_written_so_far, total)`, its first invocation is `(0, total)`
and its last invocation is `(total, total)`. -/
theorem download_progress_contract (url tempRoot : String)
    (dest : DestProvided) (fs : FS) (events : List ReadEvent)
    (h : String) (total : Nat) (st : Storage) (fs0 fs1 : FS) :
    (downloadProgress (.ok (none, events)) url dest tempRoot fs =
      ([], (.error (.InvalidRequest "response does not contain 'content-length' header"), fs))) ∧
    (parseU64 h = none →
      downloadProgress (.ok (some h, events)) url dest tempRoot fs =
        ([], (.error (.InvalidRequest "'content-length' in the response header could not be parsed"), fs))) ∧
    (parseU64 h = some total → cleanEvents events = true →
      sumChunks events = total →
      Downloader.storageStep url dest tempRoot fs = (.ok st, fs0) →
      st.create fs0 = (.ok (), fs1) →
      (downloadProgress (.ok (some h, events)) url dest tempRoot fs).1 =
          progressCalls total events 0 ∧
      (downloadProgress (.ok (some h, events)) url dest tempRoot fs).1.head? =
          some (0, total) ∧
      (downloadProgress (.ok (some h, events)) url dest tempRoot fs).1.getLast? =
          some (total, total) ∧
      (downloadProgress (.ok (some h, events)) url dest tempRoot fs).2.1 =
          Archive.new st) := by
  refine ⟨rfl, ?_, ?_⟩
  · intro hp
    unfold downloadProgress
    dsimp only
    rw [hp]
  · intro hp hclean hsum hstep hcreate
    unfold downloadProgress
    dsimp only
    rw [hp]
    dsimp only
    rw [hstep]
    dsimp only
    rw [hcreate]
    dsimp only
    refine ⟨?_, ?_, ?_, ?_⟩
    · simpa using copyLoop_calls st total events 0 [] fs1 hclean
    · rw [show (copyLoop st total events 0 [] fs1).1 = progressCalls total events 0 from by
          simpa using copyLoop_calls st total events 0 [] fs1 hclean]
      exact progressCalls_head total events 0
    · rw [show (copyLoop st total events 0 [] fs1).1 = progressCalls total events 0 from by
          simpa using copyLoop_calls st total events 0 [] fs1 hclean]
      rw [progressCalls_getLast total events 0 hclean]
      rw [Nat.zero_add, hsum]
    · exact copyLoop_result st total events 0 [] fs1 hclean

/-- Witness for C4: a 3-byte body delivered in two chunks with one
interrupted read in between, `content-length: 3`, plus an unparsable
header case. -/
theorem download_progress_contract_witness :
    ((downloadProgress (.ok (some "3", [.chunk [55, 56], .interrupted, .chunk [57]]))
        "http://host/sample.zip" .TempDir "tmp" ⟨[], []⟩).1 =
      progressCalls 3 [.chunk [55, 56], .interrupted, .chunk [57]] 0 ∧
     (downloadProgress (.ok (some "3", [.chunk [55, 56], .interrupted, .chunk [57]]))
        "http://host/sample.zip" .TempDir "tmp" ⟨[], []⟩).1.head? = some (0, 3) ∧
     (downloadProgress (.ok (some "3", [.chunk [55, 56], .interrupted, .chunk [57]]))
        "http://host/sample.zip" .TempDir "tmp" ⟨[], []⟩).1.getLast? = some (3, 3) ∧
     (downloadProgress (.ok (some "3", [.chunk [55, 56], .interrupted, .chunk [57]]))
        "http://host/sample.zip" .TempDir "tmp" ⟨[], []⟩).2.1 =
       Archive.new (.FileInTempDirectory "tmp" "sample.zip")) ∧
    downloadProgress (.ok (some "3x", [])) "http://host/sample.zip" .TempDir "tmp" ⟨[], []⟩ =
      ([], (.error (.InvalidRequest "'content-length' in the response header could not be parsed"),
        ⟨[], []⟩)) :=
  ⟨(download_progress_contract "http://host/sample.zip" "tmp" .TempDir ⟨[], []⟩
      [.chunk [55, 56], .interrupted, .chunk [57]] "3" 3
      (.FileInTempDirectory "tmp" "sample.zip") ⟨[pathComponents "tmp"], []⟩
      ⟨[pathComponents "tmp"],
       [(pathComponents "tmp/sample.zip", ⟨[], none⟩)]⟩).2.2
      (by decide) (by decide) (by decide) (by decide) (by decide),
   (download_progress_contract "http://host/sample.zip" "tmp" .TempDir ⟨[], []⟩
      [] "3x" 0 (.FileOnDisk "unused") ⟨[], []⟩ ⟨[], []⟩).2.1 (by decide)⟩

end Arkiv
